import Mathlib

/-!
Verification of the health-data aggregator's timestamp-normalization and
date-keyed merge engine.

The development shallowly embeds the program's core units:
`TimestampNormalizer` (normalizer.py), `DataMerger` (merger.py),
`HealthMetrics` (metrics.py) and the batch pipeline of
`HealthDataAggregator` (main.py).

Numeric record fields (hours, scores, minutes, calories) are modelled as
rationals; Python dictionaries keyed by date are modelled as association
lists that preserve insertion order, mirroring Python dict semantics.

Standard-library behaviour used by the source is modelled from its
documented semantics, restricted to the shapes of data this program
handles:
* `datetime.fromisoformat` is modelled on strings of the form
  `YYYY-MM-DD<sep>HH:MM:SS` (`<sep>` being `T` or a space) followed by an
  optional `+HH:MM` / `-HH:MM` offset; the code pre-replaces every `Z`
  with `+00:00`, which is modelled literally.
* `datetime.strptime` with format `%Y-%m-%d %H:%M:%S` is modelled on
  zero-padded fixed-width strings (the shape of all of this program's
  local timestamps).
* `zoneinfo.ZoneInfo` for the registry's four North-American zones is
  modelled by the post-2007 United States daylight-saving rule (DST from
  the second Sunday in March to the first Sunday in November, with
  PEP-495 fold=0 resolution of ambiguous and non-existent wall times),
  the rule in effect for every date this program processes.
* Proleptic-Gregorian calendar arithmetic (what `datetime` implements) is
  embedded through standard Julian-day-number conversions.
-/

deriving instance DecidableEq for Except

/-- Decode a decimal digit character; `none` for any other character. -/
def toDigit (c : Char) : Option Nat :=
  if 48 ≤ c.toNat ∧ c.toNat ≤ 57 then some (c.toNat - 48) else none

/-- The character for a decimal digit (models zero-padded formatting). -/
def digitChar (n : Nat) : Char := Char.ofNat (48 + n)

/-- Read a two-digit zero-padded number. -/
def read2 (a b : Char) : Option Nat :=
  match toDigit a, toDigit b with
  | some x, some y => some (10 * x + y)
  | _, _ => none

/-- Read a four-digit zero-padded number. -/
def read4 (a b c d : Char) : Option Nat :=
  match toDigit a, toDigit b, toDigit c, toDigit d with
  | some x, some y, some z, some w => some (1000 * x + 100 * y + 10 * z + w)
  | _, _, _, _ => none

/-- Gregorian leap-year rule, as implemented by Python's `datetime`. -/
def isLeapYear (y : Nat) : Bool :=
  y % 4 == 0 && (y % 100 != 0 || y % 400 == 0)

/-- Number of days in a month of a given year. -/
def daysInMonth (y m : Nat) : Nat :=
  if m == 2 then (if isLeapYear y then 29 else 28)
  else if m == 4 || m == 6 || m == 9 || m == 11 then 30
  else 31

/-- Valid calendar date for Python's `datetime` (years 1..9999). -/
def validDate (y mo d : Nat) : Bool :=
  1 ≤ y && y ≤ 9999 && 1 ≤ mo && mo ≤ 12 && 1 ≤ d && d ≤ daysInMonth y mo

/-- Valid time-of-day fields for Python's `datetime`. -/
def validTime (h mi s : Nat) : Bool :=
  h ≤ 23 && mi ≤ 59 && s ≤ 59

/-- Julian day number of a proleptic-Gregorian calendar date (valid for
years 1..9999), the day-numbering `datetime` arithmetic is equivalent to. -/
def daysFromCivil (y m d : Nat) : Nat :=
  let a := (14 - m) / 12
  let yy := y + 4800 - a
  let mm := m + 12 * a - 3
  d + (153 * mm + 2) / 5 + 365 * yy + yy / 4 - yy / 100 + yy / 400 - 32045

/-- Calendar date (year, month, day) of a Julian day number. -/
def civilFromDays (j : Nat) : Nat × Nat × Nat :=
  let a := j + 32044
  let b := (4 * a + 3) / 146097
  let c := a - 146097 * b / 4
  let d := (4 * c + 3) / 1461
  let e := c - 1461 * d / 4
  let m := (5 * e + 2) / 153
  (100 * b + d - 4800 + m / 10, m + 3 - 12 * (m / 10), e - (153 * m + 2) / 5 + 1)

/-- Model of a Python `datetime` value: civil fields plus the `tzinfo`
UTC offset in minutes (`none` models a naive datetime). -/
structure PyDateTime where
  year : Nat
  month : Nat
  day : Nat
  hour : Nat
  minute : Nat
  second : Nat
  offsetMin : Option Int
deriving DecidableEq

/-- Seconds into the day of a datetime's time-of-day fields. -/
def timeOfDaySec (dt : PyDateTime) : Nat :=
  dt.hour * 3600 + dt.minute * 60 + dt.second

/-- Absolute second count (Julian day number times 86400 plus
time-of-day) of a datetime's civil fields. -/
def toSeconds (dt : PyDateTime) : Nat :=
  daysFromCivil dt.year dt.month dt.day * 86400 + timeOfDaySec dt

/-- Datetime whose civil fields denote the given absolute second count,
carrying the given offset. -/
def ofSeconds (n : Nat) (off : Option Int) : PyDateTime :=
  ⟨(civilFromDays (n / 86400)).1, (civilFromDays (n / 86400)).2.1,
   (civilFromDays (n / 86400)).2.2,
   n % 86400 / 3600, n % 86400 % 3600 / 60, n % 86400 % 60, off⟩

/-- Two-character zero-padded decimal rendering. -/
def pad2 (n : Nat) : List Char := [digitChar (n / 10), digitChar (n % 10)]

/-- Four-character zero-padded decimal rendering. -/
def pad4 (n : Nat) : List Char :=
  [digitChar (n / 1000), digitChar (n / 100 % 10), digitChar (n / 10 % 10),
   digitChar (n % 10)]

/-- Model of `strftime("%Y-%m-%d")`: the `YYYY-MM-DD` rendering of a
calendar date. -/
def formatDate3 (y mo d : Nat) : String :=
  String.mk (pad4 y ++ '-' :: pad2 mo ++ '-' :: pad2 d)

/-- The `YYYY-MM-DD` rendering of a `(year, month, day)` triple. -/
def formatTriple (t : Nat × Nat × Nat) : String := formatDate3 t.1 t.2.1 t.2.2

/-- Offset suffix of Python's `datetime.isoformat()`: empty for a naive
datetime, signed `HH:MM` otherwise. -/
def offsetSuffix : Option Int → List Char
  | none => []
  | some o =>
      (if o < 0 then '-' else '+') :: pad2 (o.natAbs / 60) ++ ':' :: pad2 (o.natAbs % 60)

/-- Model of `datetime.isoformat()` at second precision. -/
def isoformat (dt : PyDateTime) : String :=
  String.mk (pad4 dt.year ++ '-' :: pad2 dt.month ++ '-' :: pad2 dt.day ++
    'T' :: pad2 dt.hour ++ ':' :: pad2 dt.minute ++ ':' :: pad2 dt.second ++
    offsetSuffix dt.offsetMin)

/-- Model of Python's `str.replace("Z", "+00:00")`: every occurrence of
the one-character pattern is substituted. -/
def replaceZ : List Char → List Char
  | [] => []
  | c :: cs =>
      if c = 'Z' then '+' :: '0' :: '0' :: ':' :: '0' :: '0' :: replaceZ cs
      else c :: replaceZ cs

/-- Parse the optional UTC-offset suffix accepted by
`datetime.fromisoformat`: empty (naive) or a signed `HH:MM` pair, bounded
below 24 hours as `datetime.timezone` requires. Returns the offset in
minutes. -/
def parseOffsetChars : List Char → Option (Option Int)
  | [] => some none
  | [sg, a, b, ':', c, d] =>
      match read2 a b, read2 c d with
      | some oh, some om =>
          if oh ≤ 23 && om ≤ 59 then
            if sg == '+' then some (some ((oh : Int) * 60 + om))
            else if sg == '-' then some (some (-((oh : Int) * 60 + om)))
            else none
          else none
      | _, _ => none
  | _ => none

/-- Model of `datetime.fromisoformat` on this program's timestamp shapes:
`YYYY-MM-DD<sep>HH:MM:SS[±HH:MM]` with `<sep>` one of `T` or space. -/
def fromisoformatChars : List Char → Option PyDateTime
  | y1 :: y2 :: y3 :: y4 :: '-' :: m1 :: m2 :: '-' :: d1 :: d2 :: sep ::
      h1 :: h2 :: ':' :: i1 :: i2 :: ':' :: s1 :: s2 :: rest =>
    match read4 y1 y2 y3 y4, read2 m1 m2, read2 d1 d2, read2 h1 h2,
        read2 i1 i2, read2 s1 s2, parseOffsetChars rest with
    | some y, some mo, some d, some h, some mi, some sec, some off =>
        if (sep == 'T' || sep == ' ') && validDate y mo d && validTime h mi sec then
          some ⟨y, mo, d, h, mi, sec, off⟩
        else none
    | _, _, _, _, _, _, _ => none
  | _ => none

/-- Model of `datetime.strptime(s, "%Y-%m-%d %H:%M:%S")` on zero-padded
fixed-width civil timestamps; the result is a naive datetime. -/
def parseCivilChars : List Char → Option PyDateTime
  | [y1, y2, y3, y4, '-', m1, m2, '-', d1, d2, ' ', h1, h2, ':', i1, i2, ':', s1, s2] =>
    match read4 y1 y2 y3 y4, read2 m1 m2, read2 d1 d2, read2 h1 h2,
        read2 i1 i2, read2 s1 s2 with
    | some y, some mo, some d, some h, some mi, some sec =>
        if validDate y mo d && validTime h mi sec then
          some ⟨y, mo, d, h, mi, sec, none⟩
        else none
    | _, _, _, _, _, _ => none
  | _ => none

/-- Day of week of a calendar date: 0 = Monday .. 6 = Sunday. -/
def dayOfWeek (y m d : Nat) : Nat := daysFromCivil y m d % 7

/-- Day-of-month of the first Sunday of the given month. -/
def firstSundayOfMonth (y m : Nat) : Nat := 1 + (13 - dayOfWeek y m 1) % 7

/-- Post-2007 United States daylight-saving rule applied to a wall-clock
reading (`todMin` = minutes past local midnight), with PEP-495 fold=0
resolution: the non-existent hour on the spring-forward day resolves to
the standard offset, the ambiguous hour on the fall-back day to the DST
offset. -/
def usDstActive (y mo d todMin : Nat) : Bool :=
  if mo < 3 || 11 < mo then false
  else if 3 < mo && mo < 11 then true
  else if mo == 3 then
    let ss := firstSundayOfMonth y 3 + 7
    if d < ss then false else if ss < d then true else decide (180 ≤ todMin)
  else
    let fs := firstSundayOfMonth y 11
    if d < fs then true else if fs < d then false else decide (todMin < 120)

/-- A timezone rule: UTC offset in minutes as a function of the civil
date and wall-clock minute, capturing daylight-saving transitions. -/
abbrev TzRule := Nat → Nat → Nat → Nat → Int

/-- Rule of a United States zone with the given standard offset. -/
def usZoneRule (standardOffset : Int) : TzRule :=
  fun y mo d t => if usDstActive y mo d t then standardOffset + 60 else standardOffset

/-- The source's static timezone registry `TimestampNormalizer.TIMEZONE_MAP`:
four North-American rule-based zones plus the UTC/GMT aliases. -/
def TIMEZONE_MAP : List (String × TzRule) :=
  [("UTC", fun _ _ _ _ => 0),
   ("PST", usZoneRule (-480)),
   ("EST", usZoneRule (-300)),
   ("CST", usZoneRule (-360)),
   ("MST", usZoneRule (-420)),
   ("GMT", fun _ _ _ _ => 0)]

/-- Registry lookup. -/
def lookupTz (name : String) : Option TzRule := List.lookup name TIMEZONE_MAP

/-- The registry's offset (in minutes) for a zone label at the wall-clock
reading of a civil datetime. -/
def tzOffsetAt (name : String) (dt : PyDateTime) : Option Int :=
  (lookupTz name).map (fun rule => rule dt.year dt.month dt.day (dt.hour * 60 + dt.minute))

/-- `TimestampNormalizer.parse_utc_timestamp`: replace every `Z` with
`+00:00`, then parse with `fromisoformat`; on failure raise the
malformed-timestamp error naming the offending text. -/
def parse_utc_timestamp (s : String) : Except String PyDateTime :=
  match fromisoformatChars (replaceZ s.data) with
  | some dt => .ok dt
  | none => .error ("Invalid UTC timestamp format: " ++ s)

/-- `TimestampNormalizer.parse_local_timestamp`: parse a civil timestamp
with `strptime`, resolve the timezone label, attach the zone's offset at
that wall-clock reading and convert to UTC; return the UTC datetime
together with the original civil date rendered `YYYY-MM-DD`. Both
failure modes raise the one error naming both offending values. -/
def parse_local_timestamp (ts tzName : String) : Except String (PyDateTime × String) :=
  match parseCivilChars ts.data with
  | none => .error ("Invalid local timestamp format or timezone: " ++ ts ++ ", " ++ tzName)
  | some c =>
    match lookupTz tzName with
    | none => .error ("Invalid local timestamp format or timezone: " ++ ts ++ ", " ++ tzName)
    | some rule =>
        let off := rule c.year c.month c.day (c.hour * 60 + c.minute)
        .ok (ofSeconds ((toSeconds c : Int) - off * 60).toNat (some 0),
             formatDate3 c.year c.month c.day)

/-- `TimestampNormalizer.get_utc_date`: the `YYYY-MM-DD` rendering of a
datetime's stored calendar fields (`strftime`, no conversion). -/
def get_utc_date (dt : PyDateTime) : String :=
  formatDate3 dt.year dt.month dt.day

/-- Raw sleep record: the fields the normalizer and summarizer read.
`id` and the numeric metrics are optional (`dict.get` access); the two
instant strings are required (`record[...]` access). -/
structure RawSleepRecord where
  id : Option String
  start_time : String
  end_time : String
  duration_hours : Option ℚ
  quality_score : Option ℚ
deriving DecidableEq

/-- Normalized sleep record: the raw fields passed through verbatim plus
the fields `normalize_sleep_record` adds (re-normalization overwrites
the added fields, so they are kept apart from the raw ones). -/
structure NormalizedSleepRecord where
  raw : RawSleepRecord
  start_time_utc : String
  end_time_utc : String
  date : String
  source : String
deriving DecidableEq

/-- Raw workout record, analogously to `RawSleepRecord`. -/
structure RawWorkoutRecord where
  workout_id : Option String
  timestamp : String
  timezone : String
  duration_minutes : Option ℚ
  calories_burned : Option ℚ
deriving DecidableEq

/-- Normalized workout record: raw fields plus the fields
`normalize_workout_record` adds. -/
structure NormalizedWorkoutRecord where
  raw : RawWorkoutRecord
  timestamp_utc : String
  timestamp_local : String
  local_date : String
  date : String
  source : String
deriving DecidableEq

/-- `TimestampNormalizer.normalize_sleep_record`: parse both instants as
UTC timestamps, tag the record with their renderings, the canonical date
of the start instant and the source kind; wrap any parse failure. -/
def normalize_sleep_record (r : RawSleepRecord) : Except String NormalizedSleepRecord :=
  match parse_utc_timestamp r.start_time with
  | .error e => .error ("Failed to normalize sleep record: " ++ e)
  | .ok startUtc =>
    match parse_utc_timestamp r.end_time with
    | .error e => .error ("Failed to normalize sleep record: " ++ e)
    | .ok endUtc =>
        .ok ⟨r, isoformat startUtc, isoformat endUtc, get_utc_date startUtc, "sleep"⟩

/-- `TimestampNormalizer.normalize_workout_record`: convert the local
timestamp and timezone label, tag the record with the UTC rendering, the
verbatim local timestamp, the civil date, the canonical UTC date and the
source kind; wrap any failure. -/
def normalize_workout_record (r : RawWorkoutRecord) : Except String NormalizedWorkoutRecord :=
  match parse_local_timestamp r.timestamp r.timezone with
  | .error e => .error ("Failed to normalize workout record: " ++ e)
  | .ok res =>
      .ok ⟨r, isoformat res.1, r.timestamp, res.2, get_utc_date res.1, "workout"⟩

/-- Python's lexicographic (code-point) strict comparison of strings,
char-list level: the order `sorted` and `min`/`max` use. -/
def lexLt : List Char → List Char → Bool
  | _, [] => false
  | [], _ :: _ => true
  | a :: as, b :: bs => decide (a < b) || (a == b && lexLt as bs)

/-- Stable ascending insertion, implementing Python's `sorted` order. -/
def insertAsc (x : String) : List String → List String
  | [] => [x]
  | y :: ys => if lexLt x.data y.data then x :: y :: ys else y :: insertAsc x ys

/-- Model of Python's `sorted` on a list of strings. -/
def sortStrings (l : List String) : List String := l.foldr insertAsc []

/-- A daily bucket: the normalized records of one canonical date,
partitioned by source kind. Both sequences exist from the bucket's
creation (the `defaultdict` factory), either may be empty. -/
structure DayBucket where
  sleep : List NormalizedSleepRecord
  workouts : List NormalizedWorkoutRecord
deriving DecidableEq

/-- The `defaultdict` factory value. -/
def emptyBucket : DayBucket := ⟨[], []⟩

/-- Upsert into an insertion-ordered association list, modelling
`defaultdict` access: an absent key is appended with the factory value,
then the bucket is modified in place. -/
def updateBucket : List (String × DayBucket) → String → (DayBucket → DayBucket) →
    List (String × DayBucket)
  | [], d, f => [(d, f emptyBucket)]
  | (k, b) :: rest, d, f =>
      if k = d then (k, f b) :: rest else (k, b) :: updateBucket rest d f

/-- One iteration of the sleep loop of `DataMerger.merge_by_date`. -/
def addSleepRec (m : List (String × DayBucket)) (r : NormalizedSleepRecord) :
    List (String × DayBucket) :=
  updateBucket m r.date (fun b => ⟨b.sleep ++ [r], b.workouts⟩)

/-- One iteration of the workout loop of `DataMerger.merge_by_date`. -/
def addWorkoutRec (m : List (String × DayBucket)) (r : NormalizedWorkoutRecord) :
    List (String × DayBucket) :=
  updateBucket m r.date (fun b => ⟨b.sleep, b.workouts ++ [r]⟩)

/-- `DataMerger.merge_by_date`: group both normalized collections into
per-canonical-date buckets, sleep records first, then workouts. -/
def merge_by_date (ns : List NormalizedSleepRecord) (nw : List NormalizedWorkoutRecord) :
    List (String × DayBucket) :=
  nw.foldl addWorkoutRec (ns.foldl addSleepRec [])

/-- Sum of the `duration_hours` fields, absent fields contributing 0. -/
def sumDurationHours (l : List NormalizedSleepRecord) : ℚ :=
  (l.map (fun r => (r.raw.duration_hours).getD 0)).sum

/-- Sum of the `quality_score` fields, absent fields contributing 0. -/
def sumQualityScore (l : List NormalizedSleepRecord) : ℚ :=
  (l.map (fun r => (r.raw.quality_score).getD 0)).sum

/-- Sum of the `duration_minutes` fields, absent fields contributing 0. -/
def sumDurationMinutes (l : List NormalizedWorkoutRecord) : ℚ :=
  (l.map (fun r => (r.raw.duration_minutes).getD 0)).sum

/-- Sum of the `calories_burned` fields, absent fields contributing 0. -/
def sumCalories (l : List NormalizedWorkoutRecord) : ℚ :=
  (l.map (fun r => (r.raw.calories_burned).getD 0)).sum

/-- Sleep half of a daily summary. -/
structure SleepSummary where
  count : Nat
  total_duration_hours : ℚ
  average_quality_score : ℚ
  records : List NormalizedSleepRecord
deriving DecidableEq

/-- Workout half of a daily summary. -/
structure WorkoutSummary where
  count : Nat
  total_duration_minutes : ℚ
  total_calories_burned : ℚ
  records : List NormalizedWorkoutRecord
deriving DecidableEq

/-- One day's aggregate in the report. -/
structure DailySummary where
  date : String
  sleep : SleepSummary
  workouts : WorkoutSummary
deriving DecidableEq

/-- `DataMerger.create_daily_summary`: counts, summed durations, the
average quality score (0 for an empty sleep sequence), summed calories,
and the verbatim record sequences. -/
def create_daily_summary (date : String) (srs : List NormalizedSleepRecord)
    (wrs : List NormalizedWorkoutRecord) : DailySummary :=
  ⟨date,
   ⟨srs.length, sumDurationHours srs,
    if srs.isEmpty then 0 else sumQualityScore srs / (srs.length : ℚ), srs⟩,
   ⟨wrs.length, sumDurationMinutes wrs, sumCalories wrs, wrs⟩⟩

/-- Dictionary access `merged_data[date]` (total here; every date the
report iterates over is a key of the mapping). -/
def lookupBucket (m : List (String × DayBucket)) (d : String) : DayBucket :=
  (List.lookup d m).getD emptyBucket

/-- `DataMerger.generate_merged_report`: one daily summary per key of the
merged mapping, in ascending (lexicographic) date order. -/
def generate_merged_report (m : List (String × DayBucket)) : List DailySummary :=
  (sortStrings (m.map (fun p => p.1))).map
    (fun d => create_daily_summary d (lookupBucket m d).sleep (lookupBucket m d).workouts)

/-- Python's floor division `a // n` (on a number and a positive count). -/
def pyFloorDiv (a : ℚ) (n : Nat) : ℚ := ((⌊a / (n : ℚ)⌋ : ℤ) : ℚ)

/-- Loop body of `HealthMetrics.find_avg_calories_by_sleep`: accumulate a
day's calories and bump the counter when the day has a non-zero sleep
count and its sleep duration is strictly below the threshold. -/
def lowSleepStep (threshold : ℚ) (acc : ℚ × Nat) (s : DailySummary) : ℚ × Nat :=
  if s.sleep.count ≠ 0 ∧ s.sleep.total_duration_hours < threshold then
    (acc.1 + s.workouts.total_calories_burned, acc.2 + 1)
  else acc

/-- `HealthMetrics.find_avg_calories_by_sleep` on the detailed report:
floor-divide the accumulated calories by the day counter, 0 when no day
qualified. -/
def find_avg_calories_by_sleep (data : List DailySummary) (threshold : ℚ) : ℚ :=
  let acc := data.foldl (lowSleepStep threshold) (0, 0)
  if 0 < acc.2 then pyFloorDiv acc.1 acc.2 else 0

/-- The qualification test of the metric's loop, as a predicate. -/
def qualifiesLowSleep (threshold : ℚ) (s : DailySummary) : Bool :=
  (s.sleep.count != 0) && decide (s.sleep.total_duration_hours < threshold)

/-- Python's rendering of `record.get(...)` inside the warning f-string:
the identifier itself, or the text `None` when absent. -/
def optIdString : Option String → String
  | some s => s
  | none => "None"

/-- The warning `HealthDataAggregator.normalize_data` emits for a sleep
record it skips. -/
def sleepWarning (r : RawSleepRecord) (e : String) : String :=
  "Warning: Skipping sleep record " ++ optIdString r.id ++ ": " ++ e

/-- The warning emitted for a skipped workout record. -/
def workoutWarning (r : RawWorkoutRecord) (e : String) : String :=
  "Warning: Skipping workout record " ++ optIdString r.workout_id ++ ": " ++ e

/-- The warning a raw sleep record contributes, if any. -/
def sleepWarnOf (r : RawSleepRecord) : Option String :=
  match normalize_sleep_record r with
  | .ok _ => none
  | .error e => some (sleepWarning r e)

/-- The warning a raw workout record contributes, if any. -/
def workoutWarnOf (r : RawWorkoutRecord) : Option String :=
  match normalize_workout_record r with
  | .ok _ => none
  | .error e => some (workoutWarning r e)

/-- One iteration of the sleep loop of
`HealthDataAggregator.normalize_data`: a success is appended to the
normalized collection, a failure only appends its warning. -/
def sleepStep (acc : List NormalizedSleepRecord × List String) (r : RawSleepRecord) :
    List NormalizedSleepRecord × List String :=
  match normalize_sleep_record r with
  | .ok n => (acc.1 ++ [n], acc.2)
  | .error e => (acc.1, acc.2 ++ [sleepWarning r e])

/-- One iteration of the workout loop of `normalize_data`. -/
def workoutStep (acc : List NormalizedWorkoutRecord × List String) (r : RawWorkoutRecord) :
    List NormalizedWorkoutRecord × List String :=
  match normalize_workout_record r with
  | .ok n => (acc.1 ++ [n], acc.2)
  | .error e => (acc.1, acc.2 ++ [workoutWarning r e])

/-- The sleep loop of `HealthDataAggregator.normalize_data`: normalize
each record independently, collecting successes and warnings in order. -/
def normalizeSleepLoop (rs : List RawSleepRecord) :
    List NormalizedSleepRecord × List String :=
  rs.foldl sleepStep ([], [])

/-- The workout loop of `HealthDataAggregator.normalize_data`. -/
def normalizeWorkoutLoop (rs : List RawWorkoutRecord) :
    List NormalizedWorkoutRecord × List String :=
  rs.foldl workoutStep ([], [])

/-- `HealthDataAggregator.normalize_data`: both loops; a record's failure
only skips that record. Returns the two normalized collections and the
warnings in emission order. -/
def normalize_data (srs : List RawSleepRecord) (wrs : List RawWorkoutRecord) :
    (List NormalizedSleepRecord × List NormalizedWorkoutRecord) × List String :=
  (((normalizeSleepLoop srs).1, (normalizeWorkoutLoop wrs).1),
   (normalizeSleepLoop srs).2 ++ (normalizeWorkoutLoop wrs).2)

/-- Python's `min` of a non-empty string iterable, folded as iteration
does (`none` only for the empty list). -/
def minString (l : List String) : Option String :=
  l.foldl
    (fun a k =>
      match a with
      | none => some k
      | some x => some (if lexLt k.data x.data then k else x))
    none

/-- Python's `max` of a string iterable. -/
def maxString (l : List String) : Option String :=
  l.foldl
    (fun a k =>
      match a with
      | none => some k
      | some x => some (if lexLt x.data k.data then k else x))
    none

/-- Run metadata of the final result dictionary. -/
structure RunMetadata where
  sleep_records_processed : Nat
  workout_records_processed : Nat
  dates_covered : Nat
  date_range_start : Option String
  date_range_end : Option String
deriving DecidableEq

/-- The result dictionary `HealthDataAggregator.run` returns. -/
structure RunResult where
  metadata : RunMetadata
  detailed_report : List DailySummary
deriving DecidableEq

/-- The computational core of `HealthDataAggregator.run` (I/O aside):
normalize, merge, report, and assemble metadata from the normalized
collections and the merged mapping. Returns the result together with the
warnings printed along the way. -/
def run (srs : List RawSleepRecord) (wrs : List RawWorkoutRecord) :
    RunResult × List String :=
  let nd := normalize_data srs wrs
  let merged := merge_by_date nd.1.1 nd.1.2
  (⟨⟨nd.1.1.length, nd.1.2.length, merged.length,
     minString (merged.map (fun p => p.1)), maxString (merged.map (fun p => p.1))⟩,
    generate_merged_report merged⟩,
   nd.2)

/-- A normalized sleep record as produced from the repository's test
fixture (8 hours, quality 85, canonical date 2023-10-01). -/
def exampleNormalizedSleep : NormalizedSleepRecord :=
  ⟨⟨some "sleep_001", "2023-10-01T08:00:00Z", "2023-10-01T16:00:00Z", some 8, some 85⟩,
   "2023-10-01T08:00:00+00:00", "2023-10-01T16:00:00+00:00", "2023-10-01", "sleep"⟩

/-- A normalized sleep record lacking every optional metric field. -/
def exampleSleepNoMetrics : NormalizedSleepRecord :=
  ⟨⟨none, "x", "y", none, none⟩, "", "", "2023-10-01", "sleep"⟩

/-- A normalized workout record lacking every optional metric field. -/
def exampleWorkoutNoMetrics : NormalizedWorkoutRecord :=
  ⟨⟨none, "x", "PST", none, none⟩, "", "x", "2023-10-01", "2023-10-01", "workout"⟩

/-- A daily summary with one tracked hour of sleep (a low-sleep day for
any threshold above one hour) burning the given calories. -/
def lowSleepDay (cal : ℚ) : DailySummary :=
  ⟨"2023-10-01", ⟨1, 1, 0, []⟩, ⟨0, 0, cal, []⟩⟩

/-- Two qualifying low-sleep days whose calorie totals sum to -1. -/
def exampleLowSleepReport : List DailySummary := [lowSleepDay 0, lowSleepDay (-1)]

/-- A two-key bucket mapping whose keys arrive out of order. -/
def exampleBucketMap : List (String × DayBucket) :=
  [("2023-10-02", emptyBucket), ("2023-10-01", emptyBucket)]

/-- A raw sleep record whose start instant is unparseable. -/
def exampleBadSleep : RawSleepRecord :=
  ⟨some "sleep_007", "NOT-A-TIMESTAMP", "2023-10-01T16:00:00Z", some 8, some 85⟩

/-- A raw sleep record that normalizes successfully (the repository's
test fixture). -/
def exampleGoodSleep : RawSleepRecord :=
  ⟨some "sleep_001", "2023-10-01T08:00:00Z", "2023-10-01T16:00:00Z", some 8, some 85⟩

/-- A raw workout record that normalizes successfully (the repository's
test fixture). -/
def exampleGoodWorkout : RawWorkoutRecord :=
  ⟨some "w001", "2023-10-01 15:30:00", "PST", some 45, some 350⟩

/-- A raw workout record with an unregistered timezone label. -/
def exampleBadWorkout : RawWorkoutRecord :=
  ⟨some "w999", "2023-10-01 15:30:00", "XXX", some 30, some 200⟩

/-- Accumulator characterization of the sleep loop: successes and
warnings are appended in order. -/
theorem sleepLoop_acc (rs : List RawSleepRecord)
    (acc : List NormalizedSleepRecord × List String) :
    rs.foldl sleepStep acc =
      (acc.1 ++ rs.filterMap (fun r => (normalize_sleep_record r).toOption),
       acc.2 ++ rs.filterMap sleepWarnOf) := by
  induction rs generalizing acc with
  | nil => simp
  | cons r rs ih =>
      cases h : normalize_sleep_record r with
      | ok n => simp [List.foldl_cons, ih, sleepStep, h, sleepWarnOf, Except.toOption]
      | error e => simp [List.foldl_cons, ih, sleepStep, h, sleepWarnOf, Except.toOption]

/-- Accumulator characterization of the workout loop. -/
theorem workoutLoop_acc (rs : List RawWorkoutRecord)
    (acc : List NormalizedWorkoutRecord × List String) :
    rs.foldl workoutStep acc =
      (acc.1 ++ rs.filterMap (fun r => (normalize_workout_record r).toOption),
       acc.2 ++ rs.filterMap workoutWarnOf) := by
  induction rs generalizing acc with
  | nil => simp
  | cons r rs ih =>
      cases h : normalize_workout_record r with
      | ok n => simp [List.foldl_cons, ih, workoutStep, h, workoutWarnOf, Except.toOption]
      | error e => simp [List.foldl_cons, ih, workoutStep, h, workoutWarnOf, Except.toOption]

/-- The sleep loop keeps exactly the successfully normalized records and
one warning per failure. -/
theorem normalizeSleepLoop_eq (rs : List RawSleepRecord) :
    normalizeSleepLoop rs =
      (rs.filterMap (fun r => (normalize_sleep_record r).toOption),
       rs.filterMap sleepWarnOf) := by
  simpa [normalizeSleepLoop] using sleepLoop_acc rs ([], [])

/-- The workout loop keeps exactly the successfully normalized records
and one warning per failure. -/
theorem normalizeWorkoutLoop_eq (rs : List RawWorkoutRecord) :
    normalizeWorkoutLoop rs =
      (rs.filterMap (fun r => (normalize_workout_record r).toOption),
       rs.filterMap workoutWarnOf) := by
  simpa [normalizeWorkoutLoop] using workoutLoop_acc rs ([], [])

/-- A successful `toOption` comes from a successful result. -/
theorem except_toOption_some {ε α : Type} (x : Except ε α) (a : α)
    (h : x.toOption = some a) : x = .ok a := by
  cases x with
  | ok b => simp [Except.toOption] at h; rw [h]
  | error e => simp [Except.toOption] at h

/-- A failing sleep record's warning is among the emitted warnings. -/
theorem sleepWarning_mem_normalize_data (srs : List RawSleepRecord)
    (wrs : List RawWorkoutRecord) (r : RawSleepRecord) (e : String)
    (hr : r ∈ srs) (he : normalize_sleep_record r = .error e) :
    sleepWarning r e ∈ (normalize_data srs wrs).2 := by
  have : sleepWarning r e ∈ srs.filterMap sleepWarnOf :=
    List.mem_filterMap.mpr ⟨r, hr, by simp [sleepWarnOf, he]⟩
  simp only [normalize_data, normalizeSleepLoop_eq, List.mem_append]
  exact Or.inl this

/-- C5: normalization is attempted independently per record; a failing
record is excluded (never aborting the batch) and contributes exactly
one warning identifying it, every other record is still normalized, and
the final report's metadata counts equal the lengths of the successfully
normalized collections. -/
theorem C5_per_record_failure_isolation (srs : List RawSleepRecord)
    (wrs : List RawWorkoutRecord) :
    (normalize_data srs wrs).1.1
        = srs.filterMap (fun r => (normalize_sleep_record r).toOption) ∧
    (normalize_data srs wrs).1.2
        = wrs.filterMap (fun r => (normalize_workout_record r).toOption) ∧
    (normalize_data srs wrs).2
        = srs.filterMap sleepWarnOf ++ wrs.filterMap workoutWarnOf ∧
    (∀ r ∈ srs, ∀ e, normalize_sleep_record r = .error e →
        sleepWarning r e ∈ (normalize_data srs wrs).2) ∧
    (∀ r ∈ srs, ∀ n, normalize_sleep_record r = .ok n →
        n ∈ (normalize_data srs wrs).1.1) ∧
    (run srs wrs).1.metadata.sleep_records_processed
        = ((normalize_data srs wrs).1.1).length ∧
    (run srs wrs).1.metadata.workout_records_processed
        = ((normalize_data srs wrs).1.2).length := by
  refine ⟨?_, ?_, ?_, ?_, ?_, rfl, rfl⟩
  · simp [normalize_data, normalizeSleepLoop_eq]
  · simp [normalize_data, normalizeWorkoutLoop_eq]
  · simp [normalize_data, normalizeSleepLoop_eq, normalizeWorkoutLoop_eq]
  · intro r hr e he
    exact sleepWarning_mem_normalize_data srs wrs r e hr he
  · intro r hr n hn
    simp only [normalize_data, normalizeSleepLoop_eq]
    exact List.mem_filterMap.mpr ⟨r, hr, by simp [hn, Except.toOption]⟩

/-- Witness for C5 on a concrete batch holding one good and one bad
record of each kind: the bad sleep record's warning is emitted and the
good sleep record's normalization is kept. -/
theorem C5_per_record_failure_isolation_witness :
    sleepWarning exampleBadSleep
        ("Failed to normalize sleep record: Invalid UTC timestamp format: NOT-A-TIMESTAMP")
        ∈ (normalize_data [exampleGoodSleep, exampleBadSleep]
            [exampleGoodWorkout, exampleBadWorkout]).2 ∧
    exampleNormalizedSleep ∈ (normalize_data [exampleGoodSleep, exampleBadSleep]
        [exampleGoodWorkout, exampleBadWorkout]).1.1 := by
  constructor
  · exact (C5_per_record_failure_isolation [exampleGoodSleep, exampleBadSleep]
      [exampleGoodWorkout, exampleBadWorkout]).2.2.2.1 exampleBadSleep (by decide)
      ("Failed to normalize sleep record: Invalid UTC timestamp format: NOT-A-TIMESTAMP")
      (by decide)
  · exact (C5_per_record_failure_isolation [exampleGoodSleep, exampleBadSleep]
      [exampleGoodWorkout, exampleBadWorkout]).2.2.2.2.1 exampleGoodSleep (by decide)
      exampleNormalizedSleep (by decide)

/-- C8: when either instant of a sleep record is unparseable, the
normalization error wraps the underlying malformed-timestamp message,
and the batch-level warning for the record names the record's own
identifier (when present) alongside the wrapped message. -/
theorem C8_normalization_error_wraps_and_identifies (r : RawSleepRecord) :
    (∀ e, parse_utc_timestamp r.start_time = .error e →
        normalize_sleep_record r = .error ("Failed to normalize sleep record: " ++ e)) ∧
    (∀ st e, parse_utc_timestamp r.start_time = .ok st →
        parse_utc_timestamp r.end_time = .error e →
        normalize_sleep_record r = .error ("Failed to normalize sleep record: " ++ e)) ∧
    (∀ (srs : List RawSleepRecord) (wrs : List RawWorkoutRecord) (i e : String),
        r ∈ srs → r.id = some i → normalize_sleep_record r = .error e →
        ("Warning: Skipping sleep record " ++ i ++ ": " ++ e)
          ∈ (normalize_data srs wrs).2) := by
  refine ⟨?_, ?_, ?_⟩
  · intro e he
    simp [normalize_sleep_record, he]
  · intro st e hst he
    simp [normalize_sleep_record, hst, he]
  · intro srs wrs i e hr hid he
    have hw : sleepWarning r e = "Warning: Skipping sleep record " ++ i ++ ": " ++ e := by
      simp [sleepWarning, optIdString, hid]
    rw [← hw]
    exact sleepWarning_mem_normalize_data srs wrs r e hr he

/-- Witness for C8 at a concrete record with an unparseable start
instant inside a concrete batch. -/
theorem C8_normalization_error_wraps_and_identifies_witness :
    normalize_sleep_record exampleBadSleep
      = .error ("Failed to normalize sleep record: "
          ++ "Invalid UTC timestamp format: NOT-A-TIMESTAMP") ∧
    ("Warning: Skipping sleep record " ++ "sleep_007" ++ ": "
        ++ "Failed to normalize sleep record: Invalid UTC timestamp format: NOT-A-TIMESTAMP")
      ∈ (normalize_data [exampleBadSleep] []).2 := by
  constructor
  · exact (C8_normalization_error_wraps_and_identifies exampleBadSleep).1
      ("Invalid UTC timestamp format: NOT-A-TIMESTAMP") (by decide)
  · exact (C8_normalization_error_wraps_and_identifies exampleBadSleep).2.2
      [exampleBadSleep] [] "sleep_007"
      ("Failed to normalize sleep record: Invalid UTC timestamp format: NOT-A-TIMESTAMP")
      (by decide) (by decide) (by decide)

/-- A successful sleep normalization passes the raw record through
verbatim. -/
theorem raw_of_normalize_sleep (r : RawSleepRecord) (n : NormalizedSleepRecord)
    (h : normalize_sleep_record r = .ok n) : n.raw = r := by
  cases h1 : parse_utc_timestamp r.start_time with
  | error e => simp [normalize_sleep_record, h1] at h
  | ok st =>
      cases h2 : parse_utc_timestamp r.end_time with
      | error e => simp [normalize_sleep_record, h1, h2] at h
      | ok en =>
          simp only [normalize_sleep_record, h1, h2, Except.ok.injEq] at h
          rw [← h]

/-- A successful workout normalization passes the raw record through
verbatim. -/
theorem raw_of_normalize_workout (r : RawWorkoutRecord) (n : NormalizedWorkoutRecord)
    (h : normalize_workout_record r = .ok n) : n.raw = r := by
  cases h1 : parse_local_timestamp r.timestamp r.timezone with
  | error e => simp [normalize_workout_record, h1] at h
  | ok res =>
      simp only [normalize_workout_record, h1, Except.ok.injEq] at h
      rw [← h]

/-- Re-normalizing the raw fields underlying a successfully normalized
sleep record reproduces it exactly. -/
theorem renormalize_sleep (r : RawSleepRecord) (n : NormalizedSleepRecord)
    (h : normalize_sleep_record r = .ok n) :
    normalize_sleep_record n.raw = .ok n := by
  rw [raw_of_normalize_sleep r n h]; exact h

/-- Re-normalizing the raw fields underlying a successfully normalized
workout record reproduces it exactly. -/
theorem renormalize_workout (r : RawWorkoutRecord) (n : NormalizedWorkoutRecord)
    (h : normalize_workout_record r = .ok n) :
    normalize_workout_record n.raw = .ok n := by
  rw [raw_of_normalize_workout r n h]; exact h

/-- Success evaluation of `Except.toOption`. -/
theorem except_toOption_ok {ε α : Type} (a : α) :
    (Except.ok a : Except ε α).toOption = some a := rfl

/-- Failure evaluation of `Except.toOption`. -/
theorem except_toOption_error {ε α : Type} (e : ε) :
    (Except.error e : Except ε α).toOption = none := rfl

/-- The sleep loop maps a collection of re-normalizable records to
itself, with no warnings. -/
theorem normalizeSleepLoop_of_normalized (ns : List NormalizedSleepRecord)
    (h : ∀ n ∈ ns, normalize_sleep_record n.raw = .ok n) :
    normalizeSleepLoop (ns.map (fun n => n.raw)) = (ns, []) := by
  rw [normalizeSleepLoop_eq]
  induction ns with
  | nil => simp
  | cons n ns ih =>
      have hn := h n (by simp)
      have hns := ih (fun m hm => h m (by simp [hm]))
      rw [Prod.mk.injEq] at hns ⊢
      refine ⟨?_, ?_⟩
      · simp only [List.map_cons, List.filterMap_cons, hn, except_toOption_ok]
        rw [hns.1]
      · simp only [List.map_cons, List.filterMap_cons, sleepWarnOf, hn]
        rw [hns.2]

/-- The workout loop maps a collection of re-normalizable records to
itself, with no warnings. -/
theorem normalizeWorkoutLoop_of_normalized (nw : List NormalizedWorkoutRecord)
    (h : ∀ n ∈ nw, normalize_workout_record n.raw = .ok n) :
    normalizeWorkoutLoop (nw.map (fun n => n.raw)) = (nw, []) := by
  rw [normalizeWorkoutLoop_eq]
  induction nw with
  | nil => simp
  | cons n ns ih =>
      have hn := h n (by simp)
      have hns := ih (fun m hm => h m (by simp [hm]))
      rw [Prod.mk.injEq] at hns ⊢
      refine ⟨?_, ?_⟩
      · simp only [List.map_cons, List.filterMap_cons, hn, except_toOption_ok]
        rw [hns.1]
      · simp only [List.map_cons, List.filterMap_cons, workoutWarnOf, hn]
        rw [hns.2]

/-- C9: the normalize-group-summarize pipeline is idempotent on its own
output — feeding the normalized records underlying a produced report
back through the whole pipeline yields the identical result (report and
metadata alike). -/
theorem C9_pipeline_idempotent_on_own_output (srs : List RawSleepRecord)
    (wrs : List RawWorkoutRecord) :
    (run ((normalize_data srs wrs).1.1.map (fun n => n.raw))
         ((normalize_data srs wrs).1.2.map (fun n => n.raw))).1
      = (run srs wrs).1 := by
  have hs : ∀ n ∈ (normalize_data srs wrs).1.1, normalize_sleep_record n.raw = .ok n := by
    intro n hn
    simp only [normalize_data, normalizeSleepLoop_eq] at hn
    obtain ⟨r, _, hro⟩ := List.mem_filterMap.mp hn
    exact renormalize_sleep r n (except_toOption_some _ n hro)
  have hw : ∀ n ∈ (normalize_data srs wrs).1.2, normalize_workout_record n.raw = .ok n := by
    intro n hn
    simp only [normalize_data, normalizeWorkoutLoop_eq] at hn
    obtain ⟨r, _, hro⟩ := List.mem_filterMap.mp hn
    exact renormalize_workout r n (except_toOption_some _ n hro)
  have h1 := normalizeSleepLoop_of_normalized _ hs
  have h2 := normalizeWorkoutLoop_of_normalized _ hw
  simp only [normalize_data] at h1 h2
  simp [run, normalize_data, h1, h2]

/-- C7: the daily summary's average quality score is never an unguarded
division — it equals the quality sum divided by the sleep count exactly
when the sleep sequence is non-empty, and is defined as 0 when the sleep
sequence is empty. -/
theorem C7_average_quality_guarded (d : String) (srs : List NormalizedSleepRecord)
    (wrs : List NormalizedWorkoutRecord) :
    ((create_daily_summary d srs wrs).sleep.average_quality_score
        = if srs.isEmpty then 0 else sumQualityScore srs / (srs.length : ℚ)) ∧
    (srs = [] → (create_daily_summary d srs wrs).sleep.average_quality_score = 0) ∧
    (srs ≠ [] →
      (create_daily_summary d srs wrs).sleep.average_quality_score
          = sumQualityScore srs / (srs.length : ℚ) ∧
      (create_daily_summary d srs wrs).sleep.average_quality_score * (srs.length : ℚ)
          = sumQualityScore srs) := by
  refine ⟨rfl, ?_, ?_⟩
  · intro h
    subst h
    rfl
  · intro h
    have hne : srs.isEmpty = false := by
      cases srs with
      | nil => exact absurd rfl h
      | cons a l => rfl
    have hlen : (srs.length : ℚ) ≠ 0 := by
      have : srs.length ≠ 0 := fun hc => h (List.length_eq_zero.mp hc)
      exact_mod_cast this
    constructor
    · simp [create_daily_summary, hne]
    · simp only [create_daily_summary, hne, Bool.false_eq_true, if_false]
      exact div_mul_cancel₀ _ hlen

/-- Witness for C7: a singleton sleep sequence gives average 85, the
empty sequence gives average 0. -/
theorem C7_average_quality_guarded_witness :
    (create_daily_summary ("2023-10-01") [exampleNormalizedSleep] []).sleep.average_quality_score
        = sumQualityScore [exampleNormalizedSleep] / (([exampleNormalizedSleep] : List NormalizedSleepRecord).length : ℚ) ∧
    (create_daily_summary ("2023-10-01") [] []).sleep.average_quality_score = 0 := by
  constructor
  · exact ((C7_average_quality_guarded ("2023-10-01") [exampleNormalizedSleep] []).2.2
      (by decide)).1
  · exact (C7_average_quality_guarded ("2023-10-01") [] []).2.1 rfl

/-- C10: the summarizer is total over records lacking numeric metric
fields — an absent `duration_hours`, `quality_score`, `duration_minutes`
or `calories_burned` contributes 0 to the corresponding total or average
sum, and the summary (with its date and counts) is produced for every
input. -/
theorem C10_missing_metric_fields_contribute_zero (d : String)
    (srs : List NormalizedSleepRecord) (wrs : List NormalizedWorkoutRecord)
    (s : NormalizedSleepRecord) (w : NormalizedWorkoutRecord) :
    (s.raw.duration_hours = none →
      (create_daily_summary d (s :: srs) wrs).sleep.total_duration_hours
        = (create_daily_summary d srs wrs).sleep.total_duration_hours) ∧
    (s.raw.quality_score = none →
      (create_daily_summary d (s :: srs) wrs).sleep.average_quality_score
        = sumQualityScore srs / ((srs.length : ℚ) + 1)) ∧
    (w.raw.duration_minutes = none →
      (create_daily_summary d srs (w :: wrs)).workouts.total_duration_minutes
        = (create_daily_summary d srs wrs).workouts.total_duration_minutes) ∧
    (w.raw.calories_burned = none →
      (create_daily_summary d srs (w :: wrs)).workouts.total_calories_burned
        = (create_daily_summary d srs wrs).workouts.total_calories_burned) ∧
    ((create_daily_summary d srs wrs).date = d ∧
     (create_daily_summary d srs wrs).sleep.count = srs.length ∧
     (create_daily_summary d srs wrs).workouts.count = wrs.length) := by
  refine ⟨?_, ?_, ?_, ?_, rfl, rfl, rfl⟩
  · intro h
    simp [create_daily_summary, sumDurationHours, h]
  · intro h
    have : sumQualityScore (s :: srs) = sumQualityScore srs := by
      simp [sumQualityScore, h]
    simp only [create_daily_summary, List.isEmpty_cons, Bool.false_eq_true, if_false, this]
    norm_num
  · intro h
    simp [create_daily_summary, sumDurationMinutes, h]
  · intro h
    simp [create_daily_summary, sumCalories, h]

/-- Witness for C10 at concrete records lacking every metric field. -/
theorem C10_missing_metric_fields_contribute_zero_witness :
    ((create_daily_summary ("2023-10-01") [exampleSleepNoMetrics] []).sleep.total_duration_hours
        = (create_daily_summary ("2023-10-01") [] []).sleep.total_duration_hours) ∧
    ((create_daily_summary ("2023-10-01") [exampleSleepNoMetrics] []).sleep.average_quality_score
        = sumQualityScore [] / ((([] : List NormalizedSleepRecord).length : ℚ) + 1)) ∧
    ((create_daily_summary ("2023-10-01") [] [exampleWorkoutNoMetrics]).workouts.total_calories_burned
        = (create_daily_summary ("2023-10-01") [] []).workouts.total_calories_burned) := by
  refine ⟨?_, ?_, ?_⟩
  · exact (C10_missing_metric_fields_contribute_zero ("2023-10-01") [] []
      exampleSleepNoMetrics exampleWorkoutNoMetrics).1 rfl
  · exact (C10_missing_metric_fields_contribute_zero ("2023-10-01") [] []
      exampleSleepNoMetrics exampleWorkoutNoMetrics).2.1 rfl
  · exact (C10_missing_metric_fields_contribute_zero ("2023-10-01") [] []
      exampleSleepNoMetrics exampleWorkoutNoMetrics).2.2.2.1 rfl

/-- The qualification test in boolean form matches the loop's condition. -/
theorem qualifiesLowSleep_iff (t : ℚ) (s : DailySummary) :
    qualifiesLowSleep t s = true ↔
      (s.sleep.count ≠ 0 ∧ s.sleep.total_duration_hours < t) := by
  simp [qualifiesLowSleep]

/-- Accumulator characterization of the metric's loop: the fold adds the
qualifying days' calories and counts them. -/
theorem lowSleep_foldl (data : List DailySummary) (t : ℚ) (acc : ℚ × Nat) :
    data.foldl (lowSleepStep t) acc
      = (acc.1 + ((data.filter (qualifiesLowSleep t)).map
            (fun s => s.workouts.total_calories_burned)).sum,
         acc.2 + (data.filter (qualifiesLowSleep t)).length) := by
  induction data generalizing acc with
  | nil => simp
  | cons s ds ih =>
      by_cases h : s.sleep.count ≠ 0 ∧ s.sleep.total_duration_hours < t
      · have hq : qualifiesLowSleep t s = true := (qualifiesLowSleep_iff t s).mpr h
        rw [List.foldl_cons, ih]
        simp only [List.filter_cons, hq, if_true, List.map_cons, List.sum_cons, lowSleepStep]
        rw [if_pos h, Prod.mk.injEq]
        exact ⟨by ring, by simp only [List.length_cons]; omega⟩
      · have hq : qualifiesLowSleep t s = false := by
          cases hb : qualifiesLowSleep t s with
          | true => exact absurd ((qualifiesLowSleep_iff t s).mp hb) h
          | false => rfl
        rw [List.foldl_cons, ih, List.filter_cons, hq]
        simp [lowSleepStep, h]


/-- C2 counterexample: on a report with two qualifying low-sleep days
whose calorie totals accumulate to -1, the code returns the floor
division -1 // 2 = -1, whereas the integer-truncating division of -1 by
2 (what the claim specifies) is 0. -/
theorem C2_truncating_division_counterexample :
    find_avg_calories_by_sleep exampleLowSleepReport 7 = -1 ∧
    ((exampleLowSleepReport.filter (qualifiesLowSleep 7)).map
        (fun s => s.workouts.total_calories_burned)).sum = -1 ∧
    (exampleLowSleepReport.filter (qualifiesLowSleep 7)).length = 2 ∧
    (-1 : ℤ).tdiv 2 = 0 ∧
    (-1 : ℚ) ≠ 0 := by
  refine ⟨?_, ?_, ?_, by decide, by norm_num⟩
  case refine_2 =>
    norm_num [exampleLowSleepReport, lowSleepDay, qualifiesLowSleep]
  case refine_3 =>
    norm_num [exampleLowSleepReport, lowSleepDay, qualifiesLowSleep]
  have h1 : find_avg_calories_by_sleep exampleLowSleepReport 7 = pyFloorDiv (-1) 2 := by
    norm_num [find_avg_calories_by_sleep, exampleLowSleepReport, lowSleepDay,
      lowSleepStep, List.foldl_cons, List.foldl_nil]
  rw [h1, pyFloorDiv]
  norm_num

/-- C2 (amended): a day enters the average exactly when its sleep count
is non-zero and its sleep duration is strictly below the threshold (the
boundary value and sleepless days are excluded); the result is the floor
division (Python `//`, rounding toward negative infinity) of the
accumulated calories of qualifying days by the qualifying-day count — it
coincides with truncating division whenever the accumulated total is
non-negative — and 0 when no day qualifies. -/
theorem C2_low_sleep_average_floor (data : List DailySummary) (t : ℚ) :
    (find_avg_calories_by_sleep data t
       = if (data.filter (qualifiesLowSleep t)).length = 0 then 0
         else pyFloorDiv ((data.filter (qualifiesLowSleep t)).map
                (fun s => s.workouts.total_calories_burned)).sum
              (data.filter (qualifiesLowSleep t)).length) ∧
    (∀ s, qualifiesLowSleep t s = true ↔
        (s.sleep.count ≠ 0 ∧ s.sleep.total_duration_hours < t)) ∧
    (∀ s, s.sleep.total_duration_hours = t → qualifiesLowSleep t s = false) ∧
    (∀ s, s.sleep.count = 0 → qualifiesLowSleep t s = false) ∧
    (∀ v : ℤ, 0 ≤ v →
      ((data.filter (qualifiesLowSleep t)).map
          (fun s => s.workouts.total_calories_burned)).sum = (v : ℚ) →
      (data.filter (qualifiesLowSleep t)).length ≠ 0 →
      find_avg_calories_by_sleep data t
        = ((v.tdiv ((data.filter (qualifiesLowSleep t)).length : ℤ) : ℤ) : ℚ)) := by
  have hfold := lowSleep_foldl data t (0, 0)
  refine ⟨?_, qualifiesLowSleep_iff t, ?_, ?_, ?_⟩
  · simp only [find_avg_calories_by_sleep, hfold, zero_add]
    by_cases h : (data.filter (qualifiesLowSleep t)).length = 0
    · simp [h]
    · simp [h, Nat.pos_of_ne_zero h]
  · intro s hs
    simp [qualifiesLowSleep, hs]
  · intro s hs
    simp [qualifiesLowSleep, hs]
  · intro v hv0 hv hlen
    simp only [find_avg_calories_by_sleep, hfold, zero_add,
      if_pos (Nat.pos_of_ne_zero hlen)]
    rw [pyFloorDiv, hv, Int.tdiv_eq_ediv hv0 (Int.natCast_nonneg _),
      Rat.floor_intCast_div_natCast]

/-- Witness for C2: on the concrete two-day report the metric equals the
floor division of the accumulated -1 calories by 2 days, the
boundary-equal day is excluded, and on a non-negative single-day total
the floor agrees with truncating division. -/
theorem C2_low_sleep_average_floor_witness :
    (find_avg_calories_by_sleep exampleLowSleepReport 7
       = if (exampleLowSleepReport.filter (qualifiesLowSleep 7)).length = 0 then 0
         else pyFloorDiv ((exampleLowSleepReport.filter (qualifiesLowSleep 7)).map
                (fun s => s.workouts.total_calories_burned)).sum
              (exampleLowSleepReport.filter (qualifiesLowSleep 7)).length) ∧
    qualifiesLowSleep 1 (lowSleepDay 0) = false ∧
    find_avg_calories_by_sleep [lowSleepDay 5] 7
      = (((5 : ℤ).tdiv (([lowSleepDay 5].filter (qualifiesLowSleep 7)).length : ℤ) : ℤ) : ℚ) := by
  refine ⟨(C2_low_sleep_average_floor exampleLowSleepReport 7).1, ?_, ?_⟩
  · exact (C2_low_sleep_average_floor [lowSleepDay 0] 1).2.2.1 (lowSleepDay 0) (by decide)
  · exact (C2_low_sleep_average_floor [lowSleepDay 5] 7).2.2.2.2 5 (by norm_num)
      (by norm_num [lowSleepDay, qualifiesLowSleep]) (by decide)

/-- Lookup after an upsert: the updated key holds the modified bucket
(the factory value when the key was absent); every other key is
untouched. -/
theorem lookup_updateBucket (m : List (String × DayBucket)) (d k : String)
    (f : DayBucket → DayBucket) :
    List.lookup k (updateBucket m d f)
      = if k = d then some (f ((List.lookup d m).getD emptyBucket))
        else List.lookup k m := by
  induction m with
  | nil =>
      by_cases h : k = d
      · simp [updateBucket, List.lookup_cons, h]
      · simp [updateBucket, List.lookup_cons, beq_false_of_ne h, h]
  | cons p rest ih =>
      obtain ⟨a, b⟩ := p
      by_cases had : a = d
      · subst had
        by_cases hk : k = a
        · subst hk
          simp [updateBucket, List.lookup_cons]
        · simp [updateBucket, List.lookup_cons, beq_false_of_ne hk, hk]
      · by_cases hk : k = a
        · subst hk
          have hkd : k ≠ d := fun hc => had hc
          simp [updateBucket, had, List.lookup_cons, hkd]
        · have hda : d ≠ a := fun hc => had hc.symm
          simp [updateBucket, had, List.lookup_cons, beq_false_of_ne hk,
            beq_false_of_ne hda, ih]

/-- Lookup after the sleep loop of the merge: the bucket at `d` has all
of `d`-dated sleep records appended, in input order; a bucket is created
exactly when one such record exists. -/
theorem lookup_foldl_addSleep (ns : List NormalizedSleepRecord)
    (m : List (String × DayBucket)) (d : String) :
    List.lookup d (ns.foldl addSleepRec m)
      = match List.lookup d m with
        | some b => some ⟨b.sleep ++ ns.filter (fun r => r.date == d), b.workouts⟩
        | none =>
            if (ns.filter (fun r => r.date == d)).isEmpty then none
            else some ⟨ns.filter (fun r => r.date == d), []⟩ := by
  induction ns generalizing m with
  | nil => cases h : List.lookup d m <;> simp [h]
  | cons r rs ih =>
      rw [List.foldl_cons, ih]
      rw [addSleepRec, lookup_updateBucket]
      by_cases hd : d = r.date
      · have hrd : (r.date == d) = true := by simp [hd]
        rw [if_pos hd, ← hd]
        cases h : List.lookup d m with
        | some b => simp [h, List.filter_cons, hrd]
        | none => simp [h, List.filter_cons, hrd, emptyBucket]
      · have hrd : (r.date == d) = false := by
          simp only [beq_eq_false_iff_ne, ne_eq]
          exact fun hc => hd hc.symm
        rw [if_neg hd]
        cases h : List.lookup d m with
        | some b => simp [h, List.filter_cons, hrd]
        | none => simp [h, List.filter_cons, hrd]

/-- Lookup after the workout loop of the merge, analogously. -/
theorem lookup_foldl_addWorkout (nw : List NormalizedWorkoutRecord)
    (m : List (String × DayBucket)) (d : String) :
    List.lookup d (nw.foldl addWorkoutRec m)
      = match List.lookup d m with
        | some b => some ⟨b.sleep, b.workouts ++ nw.filter (fun r => r.date == d)⟩
        | none =>
            if (nw.filter (fun r => r.date == d)).isEmpty then none
            else some ⟨[], nw.filter (fun r => r.date == d)⟩ := by
  induction nw generalizing m with
  | nil => cases h : List.lookup d m <;> simp [h]
  | cons r rs ih =>
      rw [List.foldl_cons, ih]
      rw [addWorkoutRec, lookup_updateBucket]
      by_cases hd : d = r.date
      · have hrd : (r.date == d) = true := by simp [hd]
        rw [if_pos hd, ← hd]
        cases h : List.lookup d m with
        | some b => simp [h, List.filter_cons, hrd]
        | none => simp [h, List.filter_cons, hrd, emptyBucket]
      · have hrd : (r.date == d) = false := by
          simp only [beq_eq_false_iff_ne, ne_eq]
          exact fun hc => hd hc.symm
        rw [if_neg hd]
        cases h : List.lookup d m with
        | some b => simp [h, List.filter_cons, hrd]
        | none => simp [h, List.filter_cons, hrd]

/-- Appending a sleep record into its bucket adds exactly that record to
the concatenation of all buckets' sleep sequences. -/
theorem flatten_sleep_addSleepRec (m : List (String × DayBucket))
    (r : NormalizedSleepRecord) :
    (((addSleepRec m r).map (fun p => p.2.sleep)).flatten).Perm
      ((m.map (fun p => p.2.sleep)).flatten ++ [r]) := by
  rw [addSleepRec]
  induction m with
  | nil => simp [updateBucket, emptyBucket]
  | cons p rest ih =>
      obtain ⟨a, b⟩ := p
      by_cases h : a = r.date
      · simp only [updateBucket, h, if_pos, List.map_cons, List.flatten_cons]
        rw [List.append_assoc, List.append_assoc]
        exact List.Perm.append_left b.sleep (List.perm_append_comm)
      · simp only [updateBucket, h, if_false, List.map_cons, List.flatten_cons]
        rw [List.append_assoc]
        exact List.Perm.append_left b.sleep ih

/-- Appending a sleep record into its bucket leaves the concatenation of
all buckets' workout sequences unchanged. -/
theorem flatten_workouts_addSleepRec (m : List (String × DayBucket))
    (r : NormalizedSleepRecord) :
    ((addSleepRec m r).map (fun p => p.2.workouts)).flatten
      = (m.map (fun p => p.2.workouts)).flatten := by
  rw [addSleepRec]
  induction m with
  | nil => simp [updateBucket, emptyBucket]
  | cons p rest ih =>
      obtain ⟨a, b⟩ := p
      by_cases h : a = r.date
      · simp [updateBucket, h]
      · simp [updateBucket, h, ih]

/-- Appending a workout record into its bucket adds exactly that record
to the concatenation of all buckets' workout sequences. -/
theorem flatten_workouts_addWorkoutRec (m : List (String × DayBucket))
    (r : NormalizedWorkoutRecord) :
    (((addWorkoutRec m r).map (fun p => p.2.workouts)).flatten).Perm
      ((m.map (fun p => p.2.workouts)).flatten ++ [r]) := by
  rw [addWorkoutRec]
  induction m with
  | nil => simp [updateBucket, emptyBucket]
  | cons p rest ih =>
      obtain ⟨a, b⟩ := p
      by_cases h : a = r.date
      · simp only [updateBucket, h, if_pos, List.map_cons, List.flatten_cons]
        rw [List.append_assoc, List.append_assoc]
        exact List.Perm.append_left b.workouts (List.perm_append_comm)
      · simp only [updateBucket, h, if_false, List.map_cons, List.flatten_cons]
        rw [List.append_assoc]
        exact List.Perm.append_left b.workouts ih

/-- Appending a workout record leaves the buckets' sleep sequences
unchanged. -/
theorem flatten_sleep_addWorkoutRec (m : List (String × DayBucket))
    (r : NormalizedWorkoutRecord) :
    ((addWorkoutRec m r).map (fun p => p.2.sleep)).flatten
      = (m.map (fun p => p.2.sleep)).flatten := by
  rw [addWorkoutRec]
  induction m with
  | nil => simp [updateBucket, emptyBucket]
  | cons p rest ih =>
      obtain ⟨a, b⟩ := p
      by_cases h : a = r.date
      · simp [updateBucket, h]
      · simp [updateBucket, h, ih]

/-- The sleep loop of the merge appends exactly the processed records to
the buckets' sleep sequences (up to bucket placement). -/
theorem flatten_sleep_foldl_addSleep (ns : List NormalizedSleepRecord)
    (m : List (String × DayBucket)) :
    (((ns.foldl addSleepRec m).map (fun p => p.2.sleep)).flatten).Perm
      ((m.map (fun p => p.2.sleep)).flatten ++ ns) := by
  induction ns generalizing m with
  | nil => simp
  | cons r rs ih =>
      rw [List.foldl_cons]
      refine (ih (addSleepRec m r)).trans ?_
      refine (List.Perm.append_right rs (flatten_sleep_addSleepRec m r)).trans ?_
      simp

/-- The sleep loop leaves workout sequences unchanged. -/
theorem flatten_workouts_foldl_addSleep (ns : List NormalizedSleepRecord)
    (m : List (String × DayBucket)) :
    ((ns.foldl addSleepRec m).map (fun p => p.2.workouts)).flatten
      = (m.map (fun p => p.2.workouts)).flatten := by
  induction ns generalizing m with
  | nil => rfl
  | cons r rs ih =>
      rw [List.foldl_cons, ih, flatten_workouts_addSleepRec]

/-- The workout loop of the merge appends exactly the processed records
to the buckets' workout sequences. -/
theorem flatten_workouts_foldl_addWorkout (nw : List NormalizedWorkoutRecord)
    (m : List (String × DayBucket)) :
    (((nw.foldl addWorkoutRec m).map (fun p => p.2.workouts)).flatten).Perm
      ((m.map (fun p => p.2.workouts)).flatten ++ nw) := by
  induction nw generalizing m with
  | nil => simp
  | cons r rs ih =>
      rw [List.foldl_cons]
      refine (ih (addWorkoutRec m r)).trans ?_
      refine (List.Perm.append_right rs (flatten_workouts_addWorkoutRec m r)).trans ?_
      simp

/-- The workout loop leaves sleep sequences unchanged. -/
theorem flatten_sleep_foldl_addWorkout (nw : List NormalizedWorkoutRecord)
    (m : List (String × DayBucket)) :
    ((nw.foldl addWorkoutRec m).map (fun p => p.2.sleep)).flatten
      = (m.map (fun p => p.2.sleep)).flatten := by
  induction nw generalizing m with
  | nil => rfl
  | cons r rs ih =>
      rw [List.foldl_cons, ih, flatten_sleep_addWorkoutRec]

/-- C3: the merge is a partition of its two inputs. The bucket mapping
holds, at each date, exactly the records of that date (each kind's
records in input order, so every record lands in exactly the bucket
chosen by its canonical date); a key exists exactly when some record of
either stream carries that date, and a date present in only one stream
gets an empty sequence for the other kind because every bucket carries
both sequences from creation; and the concatenation of all buckets'
records of each kind is a permutation of the corresponding input
collection. -/
theorem C3_merge_by_date_partition (ns : List NormalizedSleepRecord)
    (nw : List NormalizedWorkoutRecord) :
    (∀ d, List.lookup d (merge_by_date ns nw)
        = if (ns.filter (fun r => r.date == d)).isEmpty
             && (nw.filter (fun r => r.date == d)).isEmpty then none
          else some ⟨ns.filter (fun r => r.date == d),
                     nw.filter (fun r => r.date == d)⟩) ∧
    (((merge_by_date ns nw).map (fun p => p.2.sleep)).flatten).Perm ns ∧
    (((merge_by_date ns nw).map (fun p => p.2.workouts)).flatten).Perm nw := by
  refine ⟨?_, ?_, ?_⟩
  · intro d
    rw [merge_by_date, lookup_foldl_addWorkout, lookup_foldl_addSleep]
    simp only [List.lookup_nil]
    cases hs : (ns.filter (fun r => r.date == d)).isEmpty with
    | true =>
        have hsl : ns.filter (fun r => r.date == d) = [] := by
          simpa using hs
        cases hw : (nw.filter (fun r => r.date == d)).isEmpty with
        | true => simp [hs, hw]
        | false => simp [hs, hw, hsl]
    | false =>
        cases hw : (nw.filter (fun r => r.date == d)).isEmpty with
        | true => simp [hs, hw]
        | false => simp [hs, hw]
  · rw [merge_by_date, flatten_sleep_foldl_addWorkout]
    simpa using flatten_sleep_foldl_addSleep ns []
  · rw [merge_by_date]
    refine (flatten_workouts_foldl_addWorkout nw _).trans ?_
    rw [flatten_workouts_foldl_addSleep]
    simp

/-- Irreflexivity of the lexicographic comparison. -/
theorem lexLt_irrefl (l : List Char) : lexLt l l = false := by
  induction l with
  | nil => rfl
  | cons a as ih => simp [lexLt, ih]

/-- Transitivity of the lexicographic comparison. -/
theorem lexLt_trans (a b c : List Char) (h1 : lexLt a b = true)
    (h2 : lexLt b c = true) : lexLt a c = true := by
  induction a generalizing b c with
  | nil =>
      cases c with
      | nil => cases b <;> simp [lexLt] at h1 h2
      | cons z zs => rfl
  | cons x xs ih =>
      cases b with
      | nil => simp [lexLt] at h1
      | cons y ys =>
          cases c with
          | nil => simp [lexLt] at h2
          | cons z zs =>
              simp only [lexLt, Bool.or_eq_true, Bool.and_eq_true,
                decide_eq_true_eq, beq_iff_eq] at h1 h2 ⊢
              rcases h1 with h1 | ⟨rfl, h1⟩
              · rcases h2 with h2 | ⟨rfl, h2⟩
                · exact Or.inl (lt_trans h1 h2)
                · exact Or.inl h1
              · rcases h2 with h2 | ⟨rfl, h2⟩
                · exact Or.inl h2
                · exact Or.inr ⟨rfl, ih ys zs h1 h2⟩

/-- Totality of the lexicographic comparison on distinct lists. -/
theorem lexLt_connex (a b : List Char) (h : a ≠ b) :
    lexLt a b = true ∨ lexLt b a = true := by
  induction a generalizing b with
  | nil =>
      cases b with
      | nil => exact absurd rfl h
      | cons y ys => exact Or.inl rfl
  | cons x xs ih =>
      cases b with
      | nil => exact Or.inr rfl
      | cons y ys =>
          rcases lt_trichotomy x y with hxy | hxy | hxy
          · exact Or.inl (by simp [lexLt, hxy])
          · subst hxy
            have hne : xs ≠ ys := fun hc => h (by rw [hc])
            rcases ih ys hne with h1 | h1
            · exact Or.inl (by simp [lexLt, h1])
            · exact Or.inr (by simp [lexLt, h1])
          · exact Or.inr (by simp [lexLt, hxy])

/-- Asymmetry of the lexicographic comparison. -/
theorem lexLt_asymm (a b : List Char) (h : lexLt a b = true) :
    lexLt b a = false := by
  cases hc : lexLt b a with
  | false => rfl
  | true =>
      have := lexLt_trans a b a h hc
      rw [lexLt_irrefl] at this
      exact absurd this (by simp)

/-- Equal character data means equal strings. -/
theorem string_data_inj {a b : String} (h : a.data = b.data) : a = b := by
  cases a
  cases b
  exact congrArg String.mk (by simpa using h)

/-- Inserting permutes to consing. -/
theorem insertAsc_perm (x : String) (l : List String) :
    (insertAsc x l).Perm (x :: l) := by
  induction l with
  | nil => exact List.Perm.refl _
  | cons y ys ih =>
      by_cases h : lexLt x.data y.data
      · simp [insertAsc, h]
      · rw [insertAsc, if_neg h]
        exact (ih.cons y).trans (List.Perm.swap x y ys)

/-- The sort permutes its input. -/
theorem sortStrings_perm (l : List String) : (sortStrings l).Perm l := by
  induction l with
  | nil => exact List.Perm.refl _
  | cons x xs ih => exact (insertAsc_perm x (sortStrings xs)).trans (ih.cons x)

/-- Inserting into a weakly ascending list keeps it weakly ascending. -/
theorem pairwise_insertAsc (x : String) (l : List String)
    (h : l.Pairwise (fun a b => lexLt b.data a.data = false)) :
    (insertAsc x l).Pairwise (fun a b => lexLt b.data a.data = false) := by
  induction l with
  | nil => simp [insertAsc]
  | cons y ys ih =>
      rcases List.pairwise_cons.mp h with ⟨hy, hys⟩
      by_cases hg : lexLt x.data y.data = true
      · rw [insertAsc, if_pos hg]
        refine List.pairwise_cons.mpr ⟨?_, h⟩
        intro z hz
        rcases List.mem_cons.mp hz with rfl | hz'
        · exact lexLt_asymm x.data z.data hg
        · cases hc : lexLt z.data x.data with
          | false => rfl
          | true =>
              have : lexLt z.data y.data = true := lexLt_trans z.data x.data y.data hc hg
              rw [hy z hz'] at this
              exact absurd this (by simp)
      · rw [insertAsc, if_neg hg]
        refine List.pairwise_cons.mpr ⟨?_, ih hys⟩
        intro z hz
        have hz' := (insertAsc_perm x ys).mem_iff.mp hz
        rcases List.mem_cons.mp hz' with rfl | hz''
        · simpa using hg
        · exact hy z hz''

/-- The sort's output is weakly ascending. -/
theorem sortStrings_pairwise (l : List String) :
    (sortStrings l).Pairwise (fun a b => lexLt b.data a.data = false) := by
  induction l with
  | nil => simp [sortStrings]
  | cons x xs ih => exact pairwise_insertAsc x (sortStrings xs) ih

/-- On duplicate-free input the sort's output is strictly ascending. -/
theorem sortStrings_strict (l : List String) (h : l.Nodup) :
    (sortStrings l).Pairwise (fun a b => lexLt a.data b.data = true) := by
  have hp := sortStrings_pairwise l
  have hnd : (sortStrings l).Nodup := ((sortStrings_perm l).nodup_iff).mpr h
  refine (hp.and hnd).imp ?_
  intro a b hab
  obtain ⟨h1, h2⟩ := hab
  have hne : a.data ≠ b.data := fun hc => h2 (string_data_inj hc)
  rcases lexLt_connex a.data b.data hne with hab' | hba
  · exact hab'
  · rw [h1] at hba
    exact absurd hba (by simp)

/-- C6: the report holds exactly one daily summary per key of the bucket
mapping — its date column is a permutation of the mapping's keys — in
strictly ascending lexicographic (code-point) string order of the
`YYYY-MM-DD` dates; on the empty mapping the report is the empty
sequence. -/
theorem C6_report_one_summary_per_key_sorted (m : List (String × DayBucket)) :
    ((generate_merged_report m).map (fun s => s.date)
        = sortStrings (m.map (fun p => p.1))) ∧
    (((generate_merged_report m).map (fun s => s.date)).Perm
        (m.map (fun p => p.1))) ∧
    ((m.map (fun p => p.1)).Nodup →
      ((generate_merged_report m).map (fun s => s.date)).Pairwise
        (fun a b => lexLt a.data b.data = true)) ∧
    generate_merged_report [] = [] := by
  have hmap : (generate_merged_report m).map (fun s => s.date)
      = sortStrings (m.map (fun p => p.1)) := by
    rw [generate_merged_report, List.map_map]
    have hid : ((fun s : DailySummary => s.date) ∘ fun d =>
        create_daily_summary d (lookupBucket m d).sleep (lookupBucket m d).workouts)
        = fun d => d := rfl
    rw [hid]
    simp
  refine ⟨hmap, ?_, ?_, rfl⟩
  · rw [hmap]
    exact sortStrings_perm _
  · intro h
    rw [hmap]
    exact sortStrings_strict _ h

/-- Witness for C6: on a concrete two-key mapping with out-of-order
distinct keys the report's dates are strictly ascending. -/
theorem C6_report_one_summary_per_key_sorted_witness :
    ((generate_merged_report exampleBucketMap).map (fun s => s.date)).Pairwise
      (fun a b => lexLt a.data b.data = true) :=
  (C6_report_one_summary_per_key_sorted exampleBucketMap).2.2.1 (by decide)

/-- Inversion of the civil-timestamp parse: the fields are validated and
the result is naive. -/
theorem parseCivil_valid (cs : List Char) (c : PyDateTime)
    (h : parseCivilChars cs = some c) :
    validDate c.year c.month c.day = true ∧
    validTime c.hour c.minute c.second = true ∧ c.offsetMin = none := by
  unfold parseCivilChars at h
  split at h
  · split at h
    · split at h
      · rename_i hcond
        injection h with h'
        subst h'
        rw [Bool.and_eq_true] at hcond
        exact ⟨hcond.1, hcond.2, rfl⟩
      · exact absurd h (by simp)
    · exact absurd h (by simp)
  · exact absurd h (by simp)

/-- Inversion of a successful local parse: the civil fields come from
`strptime`, the zone rule from the registry, the instant from the
offset-shifted conversion, and the local date is the civil date's
rendering. -/
theorem parse_local_ok_inv (ts tzName : String) (dt : PyDateTime) (ld : String)
    (h : parse_local_timestamp ts tzName = .ok (dt, ld)) :
    ∃ c rule, parseCivilChars ts.data = some c ∧ lookupTz tzName = some rule ∧
      dt = ofSeconds ((toSeconds c : Int)
            - rule c.year c.month c.day (c.hour * 60 + c.minute) * 60).toNat (some 0) ∧
      ld = formatDate3 c.year c.month c.day := by
  unfold parse_local_timestamp at h
  split at h
  · simp at h
  · rename_i c hc
    split at h
    · simp at h
    · rename_i rule hrule
      injection h with h'
      injection h' with hdt hld
      exact ⟨c, rule, hc, hrule, hdt.symm, hld.symm⟩

/-- C1: for every registered timezone label and well-formed civil
timestamp, the local parse returns the civil calendar date itself as the
`LocalDate`, independently of the UTC instant; and whenever the zone's
offset at that wall-clock reading is negative (say -m minutes) and the
civil time lies within m minutes of midnight, the canonical UTC date of
the returned instant is the civil date plus one day while the returned
`LocalDate` is still the civil date. -/
theorem C1_local_date_and_day_boundary :
    (∀ ts tzName dt ld, parse_local_timestamp ts tzName = .ok (dt, ld) →
      ∃ c, parseCivilChars ts.data = some c ∧
        ld = formatDate3 c.year c.month c.day) ∧
    (∀ ts tzName dt ld c (m : Nat),
      parse_local_timestamp ts tzName = .ok (dt, ld) →
      parseCivilChars ts.data = some c →
      tzOffsetAt tzName c = some (-(m : Int)) →
      0 < m → m * 60 ≤ 86400 →
      86400 ≤ timeOfDaySec c + m * 60 →
      get_utc_date dt
          = formatTriple (civilFromDays (daysFromCivil c.year c.month c.day + 1)) ∧
      ld = formatDate3 c.year c.month c.day) := by
  constructor
  · intro ts tzName dt ld h
    obtain ⟨c, rule, hc, _, _, hld⟩ := parse_local_ok_inv ts tzName dt ld h
    exact ⟨c, hc, hld⟩
  · intro ts tzName dt ld c m h hc hoff hm hm60 hmid
    obtain ⟨c', rule, hc', hrule, hdt, hld⟩ := parse_local_ok_inv ts tzName dt ld h
    rw [hc] at hc'
    injection hc' with hcc
    subst hcc
    refine ⟨?_, hld⟩
    have hoffv : rule c.year c.month c.day (c.hour * 60 + c.minute) = -(m : Int) := by
      rw [tzOffsetAt, hrule] at hoff
      simpa using hoff
    rw [hoffv] at hdt
    have harg : ((toSeconds c : Int) - -(m : Int) * 60).toNat
        = toSeconds c + m * 60 := by
      have : (toSeconds c : Int) - -(m : Int) * 60
          = ((toSeconds c + m * 60 : Nat) : Int) := by push_cast; ring
      rw [this, Int.toNat_natCast]
    rw [harg] at hdt
    have hval := parseCivil_valid ts.data c hc
    have htod : timeOfDaySec c ≤ 86399 := by
      have hvt := hval.2.1
      simp only [validTime, Bool.and_eq_true, decide_eq_true_eq] at hvt
      obtain ⟨⟨hh, hmi⟩, hs⟩ := hvt
      unfold timeOfDaySec
      omega
    have hdiv : (toSeconds c + m * 60) / 86400
        = daysFromCivil c.year c.month c.day + 1 := by
      unfold toSeconds
      omega
    rw [hdt]
    show formatTriple (civilFromDays ((toSeconds c + m * 60) / 86400)) = _
    rw [hdiv]

/-- Witness for C1: the repository's own day-boundary fixture — civil
2023-10-01 23:45:00 in PST (offset -420 minutes that night) converts to
canonical UTC date 2023-10-02 while the local date stays 2023-10-01. -/
theorem C1_local_date_and_day_boundary_witness :
    get_utc_date ⟨2023, 10, 2, 6, 45, 0, some 0⟩
        = formatTriple (civilFromDays (daysFromCivil 2023 10 1 + 1)) ∧
    ("2023-10-01" : String) = formatDate3 2023 10 1 :=
  C1_local_date_and_day_boundary.2 ("2023-10-01 23:45:00") ("PST")
    ⟨2023, 10, 2, 6, 45, 0, some 0⟩ ("2023-10-01")
    ⟨2023, 10, 1, 23, 45, 0, none⟩ 420
    (by decide) (by decide) (by decide) (by decide) (by decide) (by decide)

/-- Decoding the digit character of a digit recovers it. -/
theorem toDigit_digitChar (a : Nat) (h : a < 10) :
    toDigit (digitChar a) = some a := by
  revert h
  revert a
  decide

/-- A successfully decoded character is the digit character of its
value. -/
theorem digitChar_of_toDigit (c : Char) (a : Nat) (h : toDigit c = some a) :
    c = digitChar a ∧ a ≤ 9 := by
  unfold toDigit at h
  split at h
  · rename_i hc
    injection h with h'
    have h48 : c.toNat = 48 + a := by omega
    constructor
    · show c = Char.ofNat (48 + a)
      rw [← h48, Char.ofNat_toNat]
    · omega
  · exact absurd h (by simp)

/-- Digit characters are digits, not `Z` and not `+`. -/
theorem digitChar_ne (a : Nat) (h : a ≤ 9) :
    digitChar a ≠ 'Z' ∧ digitChar a ≠ '+' := by
  revert h
  revert a
  decide

/-- Inversion of a two-digit read. -/
theorem read2_inv (a b : Char) (v : Nat) (h : read2 a b = some v) :
    v ≤ 99 ∧ a = digitChar (v / 10) ∧ b = digitChar (v % 10) := by
  unfold read2 at h
  split at h
  · rename_i x y hx hy
    injection h with h'
    obtain ⟨ha, hx9⟩ := digitChar_of_toDigit a x hx
    obtain ⟨hb, hy9⟩ := digitChar_of_toDigit b y hy
    subst h'
    refine ⟨by omega, ?_, ?_⟩
    · rw [ha]
      congr 1
      omega
    · rw [hb]
      congr 1
      omega
  · exact absurd h (by simp)

/-- Inversion of a four-digit read. -/
theorem read4_inv (a b c d : Char) (v : Nat) (h : read4 a b c d = some v) :
    v ≤ 9999 ∧ a = digitChar (v / 1000) ∧ b = digitChar (v / 100 % 10) ∧
    c = digitChar (v / 10 % 10) ∧ d = digitChar (v % 10) := by
  unfold read4 at h
  split at h
  · rename_i x y z w hx hy hz hw
    injection h with h'
    obtain ⟨ha, hx9⟩ := digitChar_of_toDigit a x hx
    obtain ⟨hb, hy9⟩ := digitChar_of_toDigit b y hy
    obtain ⟨hc, hz9⟩ := digitChar_of_toDigit c z hz
    obtain ⟨hd, hw9⟩ := digitChar_of_toDigit d w hw
    subst h'
    refine ⟨by omega, ?_, ?_, ?_, ?_⟩
    · rw [ha]
      congr 1
      omega
    · rw [hb]
      congr 1
      omega
    · rw [hc]
      congr 1
      omega
    · rw [hd]
      congr 1
      omega
  · exact absurd h (by simp)

/-- Reading back a zero-padded two-digit rendering. -/
theorem read2_digits (v : Nat) (h : v ≤ 99) :
    read2 (digitChar (v / 10)) (digitChar (v % 10)) = some v := by
  unfold read2
  rw [toDigit_digitChar (v / 10) (by omega), toDigit_digitChar (v % 10) (by omega)]
  show some (10 * (v / 10) + v % 10) = some v
  congr 1
  omega

/-- Reading back a zero-padded four-digit rendering. -/
theorem read4_digits (v : Nat) (h : v ≤ 9999) :
    read4 (digitChar (v / 1000)) (digitChar (v / 100 % 10))
      (digitChar (v / 10 % 10)) (digitChar (v % 10)) = some v := by
  unfold read4
  rw [toDigit_digitChar (v / 1000) (by omega), toDigit_digitChar (v / 100 % 10) (by omega),
    toDigit_digitChar (v / 10 % 10) (by omega), toDigit_digitChar (v % 10) (by omega)]
  show some (1000 * (v / 1000) + 100 * (v / 100 % 10) + 10 * (v / 10 % 10) + v % 10) = some v
  congr 1
  omega

/-- The replacement distributes over concatenation. -/
theorem replaceZ_append (l1 l2 : List Char) :
    replaceZ (l1 ++ l2) = replaceZ l1 ++ replaceZ l2 := by
  induction l1 with
  | nil => rfl
  | cons c cs ih => by_cases h : c = 'Z' <;> simp [replaceZ, h, ih]

/-- The replacement fixes a `Z`-free list. -/
theorem replaceZ_of_not_mem (l : List Char) (h : 'Z' ∉ l) : replaceZ l = l := by
  induction l with
  | nil => rfl
  | cons c cs ih =>
      have hc : c ≠ 'Z' := by
        intro hcz
        subst hcz
        exact h (List.mem_cons_self _ _)
      rw [replaceZ, if_neg hc, ih (fun hm => h (List.mem_cons_of_mem c hm))]

/-- A replacement-free region: when no `+` appears in the first `n`
characters of the output, the first `n` characters are unchanged. -/
theorem replaceZ_take_eq (l : List Char) (n : Nat)
    (h : '+' ∉ (replaceZ l).take n) : l.take n = (replaceZ l).take n := by
  induction l generalizing n with
  | nil => rfl
  | cons c cs ih =>
      by_cases hc : c = 'Z'
      · subst hc
        cases n with
        | zero => rfl
        | succ k =>
            exfalso
            apply h
            rw [replaceZ, if_pos rfl, List.take_succ_cons]
            exact List.mem_cons_self _ _
      · cases n with
        | zero => rfl
        | succ k =>
            rw [replaceZ, if_neg hc] at h ⊢
            rw [List.take_succ_cons, List.take_succ_cons,
              ih k (fun hm => h (List.mem_cons_of_mem c hm))]

/-- Every month has at most 31 days. -/
theorem daysInMonth_le (y m : Nat) : daysInMonth y m ≤ 31 := by
  unfold daysInMonth
  split
  · split <;> omega
  · split <;> omega

/-- Numeric bounds encoded by `validDate`. -/
theorem validDate_bounds (y mo d : Nat) (h : validDate y mo d = true) :
    1 ≤ y ∧ y ≤ 9999 ∧ 1 ≤ mo ∧ mo ≤ 12 ∧ 1 ≤ d ∧ d ≤ 31 := by
  simp only [validDate, Bool.and_eq_true, decide_eq_true_eq] at h
  obtain ⟨⟨⟨⟨⟨h1, h2⟩, h3⟩, h4⟩, h5⟩, h6⟩ := h
  have := daysInMonth_le y mo
  exact ⟨h1, h2, h3, h4, h5, by omega⟩

/-- Numeric bounds encoded by `validTime`. -/
theorem validTime_bounds (h mi s : Nat) (hv : validTime h mi s = true) :
    h ≤ 23 ∧ mi ≤ 59 ∧ s ≤ 59 := by
  simp only [validTime, Bool.and_eq_true, decide_eq_true_eq] at hv
  obtain ⟨⟨h1, h2⟩, h3⟩ := hv
  exact ⟨h1, h2, h3⟩

/-- Inversion of a successful `fromisoformat` parse: the fields are
validated and the first ten characters are exactly the zero-padded
`YYYY-MM-DD` rendering of the parsed date. -/
theorem fromiso_inv (cs : List Char) (dt : PyDateTime)
    (h : fromisoformatChars cs = some dt) :
    validDate dt.year dt.month dt.day = true ∧
    validTime dt.hour dt.minute dt.second = true ∧
    cs.take 10 = pad4 dt.year ++ '-' :: pad2 dt.month ++ '-' :: pad2 dt.day := by
  unfold fromisoformatChars at h
  split at h
  · split at h
    · rename_i hmatch y mo d hh mi sec off hy hmo hd hhh hmi hsec hoff
      split at h
      · rename_i hcond
        injection h with h'
        subst h'
        rw [Bool.and_eq_true, Bool.and_eq_true] at hcond
        obtain ⟨⟨hsep, hvd⟩, hvt⟩ := hcond
        obtain ⟨hy99, hy1, hy2, hy3, hy4⟩ := read4_inv _ _ _ _ _ hy
        obtain ⟨hmo99, hmo1, hmo2⟩ := read2_inv _ _ _ hmo
        obtain ⟨hd99, hd1, hd2⟩ := read2_inv _ _ _ hd
        refine ⟨hvd, hvt, ?_⟩
        rw [hy1, hy2, hy3, hy4, hmo1, hmo2, hd1, hd2]
        rfl
      · exact absurd h (by simp)
    · exact absurd h (by simp)
  · exact absurd h (by simp)

/-- The ten-character date region contains no `+`. -/
theorem plus_not_mem_date (y mo d : Nat) (hy : y ≤ 9999) (hmo : mo ≤ 99)
    (hd : d ≤ 99) :
    '+' ∉ pad4 y ++ '-' :: pad2 mo ++ '-' :: pad2 d := by
  intro hmem
  simp only [pad4, pad2, List.cons_append, List.nil_append, List.mem_cons,
    List.not_mem_nil, or_false] at hmem
  rcases hmem with h | h | h | h | h | h | h | h | h | h
  · exact (digitChar_ne (y / 1000) (by omega)).2 h.symm
  · exact (digitChar_ne (y / 100 % 10) (by omega)).2 h.symm
  · exact (digitChar_ne (y / 10 % 10) (by omega)).2 h.symm
  · exact (digitChar_ne (y % 10) (by omega)).2 h.symm
  · simp at h
  · exact (digitChar_ne (mo / 10) (by omega)).2 h.symm
  · exact (digitChar_ne (mo % 10) (by omega)).2 h.symm
  · simp at h
  · exact (digitChar_ne (d / 10) (by omega)).2 h.symm
  · exact (digitChar_ne (d % 10) (by omega)).2 h.symm

/-- The replacement fixes a two-digit rendering. -/
theorem replaceZ_pad2 (v : Nat) (h : v ≤ 99) : replaceZ (pad2 v) = pad2 v := by
  simp [pad2, replaceZ, (digitChar_ne (v / 10) (by omega)).1,
    (digitChar_ne (v % 10) (by omega)).1]

/-- The replacement fixes a four-digit rendering. -/
theorem replaceZ_pad4 (v : Nat) (h : v ≤ 9999) : replaceZ (pad4 v) = pad4 v := by
  simp [pad4, replaceZ, (digitChar_ne (v / 1000) (by omega)).1,
    (digitChar_ne (v / 100 % 10) (by omega)).1,
    (digitChar_ne (v / 10 % 10) (by omega)).1,
    (digitChar_ne (v % 10) (by omega)).1]

/-- Completeness of the `fromisoformat` model on rendered date-times
followed by a well-formed offset suffix. -/
theorem fromiso_format (y mo d hh mi sec : Nat) (rest : List Char) (off : Option Int)
    (hvd : validDate y mo d = true) (hvt : validTime hh mi sec = true)
    (hoff : parseOffsetChars rest = some off) :
    fromisoformatChars (pad4 y ++ '-' :: pad2 mo ++ '-' :: pad2 d ++ 'T' :: pad2 hh
        ++ ':' :: pad2 mi ++ ':' :: pad2 sec ++ rest)
      = some ⟨y, mo, d, hh, mi, sec, off⟩ := by
  obtain ⟨_, hy, _, hmo, _, hd⟩ := validDate_bounds y mo d hvd
  obtain ⟨hhh, hmi, hsec⟩ := validTime_bounds hh mi sec hvt
  simp only [pad4, pad2, List.cons_append, List.nil_append]
  simp only [fromisoformatChars]
  rw [read4_digits y (by omega), read2_digits mo (by omega), read2_digits d (by omega),
    read2_digits hh (by omega), read2_digits mi (by omega), read2_digits sec (by omega),
    hoff]
  simp [hvd, hvt]

/-- The rendered date-time region contains no `Z`. -/
theorem z_not_mem_core (y mo d hh mi sec : Nat) (hy : y ≤ 9999) (hmo : mo ≤ 99)
    (hd : d ≤ 99) (hh99 : hh ≤ 99) (hmi99 : mi ≤ 99) (hsec99 : sec ≤ 99) :
    'Z' ∉ pad4 y ++ '-' :: pad2 mo ++ '-' :: pad2 d ++ 'T' :: pad2 hh
        ++ ':' :: pad2 mi ++ ':' :: pad2 sec := by
  intro hmem
  simp only [pad4, pad2, List.cons_append, List.nil_append, List.mem_cons,
    List.not_mem_nil, or_false] at hmem
  rcases hmem with h|h|h|h|h|h|h|h|h|h|h|h|h|h|h|h|h|h|h
  all_goals first
    | exact (digitChar_ne _ (by omega)).1 h.symm
    | simp at h

/-- Character data of a constructed string. -/
theorem mk_data (l : List Char) : (String.mk l).data = l := rfl

/-- C4 counterexample: the parser accepts a timestamp carrying an
explicit +05:00 offset and returns an instant with offset 300 minutes,
not zero — so not every accepted input yields a zero-offset instant. -/
theorem C4_nonzero_offset_counterexample :
    parse_utc_timestamp ("2023-10-01T08:00:00+05:00")
      = .ok ⟨2023, 10, 1, 8, 0, 0, some 300⟩ ∧ (300 : Int) ≠ 0 :=
  ⟨by decide, by decide⟩

/-- C4 (amended): the literal `Z` designator and the explicit `+00:00`
suffix are accepted as equivalent, yielding the same instant; parsing
fails with the malformed-timestamp error exactly when the (`Z`-resolved)
text is not a valid calendar date-time; every instant parsed from a
rendered date-time with the `Z` designator carries zero UTC offset; and
the canonical date of every accepted instant equals the calendar date
encoded in the input's first ten characters. The instant's offset is the
one encoded in the input, which is zero for `Z`/`+00:00` inputs but not
for other explicit offsets. -/
theorem C4_parse_utc_amended :
    (∀ cs : List Char, 'Z' ∉ cs →
      (parse_utc_timestamp (String.mk (cs ++ [ 'Z' ]))).toOption
        = (parse_utc_timestamp
            (String.mk (cs ++ ('+' :: '0' :: '0' :: ':' :: '0' :: '0' :: [])))).toOption) ∧
    (∀ s : String, (∃ e, parse_utc_timestamp s = .error e)
        ↔ fromisoformatChars (replaceZ s.data) = none) ∧
    (∀ s dt, parse_utc_timestamp s = .ok dt →
        get_utc_date dt = String.mk (s.data.take 10)) ∧
    (∀ y mo d hh mi sec, validDate y mo d = true → validTime hh mi sec = true →
      parse_utc_timestamp (String.mk (pad4 y ++ '-' :: pad2 mo ++ '-' :: pad2 d
          ++ 'T' :: pad2 hh ++ ':' :: pad2 mi ++ ':' :: pad2 sec ++ [ 'Z' ]))
        = .ok ⟨y, mo, d, hh, mi, sec, some 0⟩) := by
  refine ⟨?_, ?_, ?_, ?_⟩
  · intro cs h
    have h1 : replaceZ (cs ++ [ 'Z' ])
        = cs ++ ('+' :: '0' :: '0' :: ':' :: '0' :: '0' :: []) := by
      rw [replaceZ_append, replaceZ_of_not_mem cs h]
      rfl
    have h2 : replaceZ (cs ++ ('+' :: '0' :: '0' :: ':' :: '0' :: '0' :: []))
        = cs ++ ('+' :: '0' :: '0' :: ':' :: '0' :: '0' :: []) := by
      rw [replaceZ_append, replaceZ_of_not_mem cs h]
      rfl
    simp only [parse_utc_timestamp, mk_data, h1, h2]
    cases hp : fromisoformatChars (cs ++ ('+' :: '0' :: '0' :: ':' :: '0' :: '0' :: [])) <;>
      rfl
  · intro s
    cases hp : fromisoformatChars (replaceZ s.data) with
    | some dt => simp [parse_utc_timestamp, hp]
    | none => simp [parse_utc_timestamp, hp]
  · intro s dt h
    unfold parse_utc_timestamp at h
    split at h
    · rename_i dt' hfrom
      injection h with h'
      subst h'
      obtain ⟨hvd, _, htake⟩ := fromiso_inv _ _ hfrom
      obtain ⟨_, hy, _, hmo, _, hd⟩ := validDate_bounds _ _ _ hvd
      have hplus : '+' ∉ (replaceZ s.data).take 10 := by
        rw [htake]
        exact plus_not_mem_date dt'.year dt'.month dt'.day (by omega) (by omega) (by omega)
      show String.mk (pad4 dt'.year ++ '-' :: pad2 dt'.month ++ '-' :: pad2 dt'.day)
          = String.mk (s.data.take 10)
      rw [replaceZ_take_eq s.data 10 hplus, htake]
    · simp at h
  · intro y mo d hh mi sec hvd hvt
    obtain ⟨_, hy, _, hmo, _, hd⟩ := validDate_bounds y mo d hvd
    obtain ⟨hhh, hmi, hsec⟩ := validTime_bounds hh mi sec hvt
    have hnoZ : 'Z' ∉ pad4 y ++ '-' :: pad2 mo ++ '-' :: pad2 d ++ 'T' :: pad2 hh
        ++ ':' :: pad2 mi ++ ':' :: pad2 sec :=
      z_not_mem_core y mo d hh mi sec (by omega) (by omega) (by omega) (by omega)
        (by omega) (by omega)
    have hz : replaceZ (pad4 y ++ '-' :: pad2 mo ++ '-' :: pad2 d ++ 'T' :: pad2 hh
          ++ ':' :: pad2 mi ++ ':' :: pad2 sec ++ [ 'Z' ])
        = pad4 y ++ '-' :: pad2 mo ++ '-' :: pad2 d ++ 'T' :: pad2 hh
          ++ ':' :: pad2 mi ++ ':' :: pad2 sec
          ++ ('+' :: '0' :: '0' :: ':' :: '0' :: '0' :: []) := by
      have hassoc : pad4 y ++ '-' :: pad2 mo ++ '-' :: pad2 d ++ 'T' :: pad2 hh
          ++ ':' :: pad2 mi ++ ':' :: pad2 sec ++ [ 'Z' ]
          = (pad4 y ++ '-' :: pad2 mo ++ '-' :: pad2 d ++ 'T' :: pad2 hh
            ++ ':' :: pad2 mi ++ ':' :: pad2 sec) ++ [ 'Z' ] := by
        simp
      rw [hassoc, replaceZ_append, replaceZ_of_not_mem _ hnoZ]
      simp [replaceZ]
    simp only [parse_utc_timestamp, mk_data, hz]
    rw [fromiso_format y mo d hh mi sec _ (some 0) hvd hvt (by decide)]

/-- Witness for C4 (amended) at the repository's fixtures: the `Z` and
`+00:00` spellings of the same instant parse identically, the canonical
date of the parsed instant is the encoded date, and the rendered
2023-10-01T08:00:00 with `Z` parses to the zero-offset instant. -/
theorem C4_parse_utc_amended_witness :
    (parse_utc_timestamp (String.mk (("2023-10-01T08:00:00").data ++ [ 'Z' ]))).toOption
      = (parse_utc_timestamp (String.mk (("2023-10-01T08:00:00").data
          ++ ('+' :: '0' :: '0' :: ':' :: '0' :: '0' :: [])))).toOption ∧
    get_utc_date ⟨2023, 10, 1, 8, 0, 0, some 0⟩
      = String.mk (("2023-10-01T08:00:00Z").data.take 10) ∧
    parse_utc_timestamp (String.mk (pad4 2023 ++ '-' :: pad2 10 ++ '-' :: pad2 1
        ++ 'T' :: pad2 8 ++ ':' :: pad2 0 ++ ':' :: pad2 0 ++ [ 'Z' ]))
      = .ok ⟨2023, 10, 1, 8, 0, 0, some 0⟩ := by
  refine ⟨?_, ?_, ?_⟩
  · exact C4_parse_utc_amended.1 (("2023-10-01T08:00:00").data) (by decide)
  · exact C4_parse_utc_amended.2.2.1 ("2023-10-01T08:00:00Z")
      ⟨2023, 10, 1, 8, 0, 0, some 0⟩ (by decide)
  · exact C4_parse_utc_amended.2.2.2 2023 10 1 8 0 0 (by decide) (by decide)
